import Mathlib

/-!
Shallow embedding of `crates/but-tools/src/workspace.rs` (GitButler's tool
invocation and workspace-mutation orchestration layer), together with proofs
about the claims of the specification.

Conventions of the embedding:
* Machine-level identifiers (`gix::ObjectId`, `but_workspace::StackId`) are
  opaque to this file's logic; they are modelled as `Nat`.
* External collaborators (the commit-construction engine, the diff engine, the
  snapshot log, `gitbutler_branch_actions`, `gitbutler_stack`, ...) are passed
  in as explicit oracle functions, mirroring the exact call shape of the
  source; where a claim depends on the behaviour of repository code that is
  not under `src/`, that behaviour is modelled from the spec and marked so in
  its doc comment.
* Fallible Rust code (`anyhow::Result`) becomes `Except String`; code that can
  also panic (`expect`) returns a `RunResult` which distinguishes a panic from
  an `Err`.
-/

namespace GB

/-- Commit object ids (`gix::ObjectId`), opaque to the logic of workspace.rs. -/
abbrev ObjectId := Nat

/-- Stack ids (`but_workspace::StackId`), opaque to the logic of workspace.rs. -/
abbrev StackId := Nat

/-- Outcome of running a piece of Rust code that may panic: `panicked` models
an `expect`/`panic!`-style abort, `failed` an `Err` return, `ok` an `Ok`. -/
inductive RunResult (α : Type)
  | panicked (msg : String)
  | failed (err : String)
  | ok (value : α)
deriving DecidableEq, Repr

/-- The composed commit message `format!("\x7b\x7d\n\n\x7b\x7d", title.trim(), body.trim())`
used by `create_commit`, `amend_commit_inner` and `create_blank_commit`. -/
def composeMessage (title body : String) : String :=
  title.trim ++ "\n\n" ++ body.trim

/-! ### Diff data model (`but_core`, `but_hunk_assignment`) -/

/-- A hunk header `(old_start, old_lines, new_start, new_lines)`
(`but_workspace::HunkHeader`). -/
structure HunkHeader where
  old_start : Nat
  old_lines : Nat
  new_start : Nat
  new_lines : Nat
deriving DecidableEq, Repr

/-- A unified-diff hunk (`but_core::unified_diff::DiffHunk`); `hunk.into()`
projects its header fields. -/
structure DiffHunk where
  old_start : Nat
  old_lines : Nat
  new_start : Nat
  new_lines : Nat
  diff : String
deriving DecidableEq, Repr

/-- The `From` conversion of a `DiffHunk` into its `HunkHeader`. -/
def DiffHunk.header (h : DiffHunk) : HunkHeader :=
  { old_start := h.old_start, old_lines := h.old_lines,
    new_start := h.new_start, new_lines := h.new_lines }

/-- `but_core::TreeStatus`, reduced to the payloads `get_file_changes` reads. -/
inductive TreeStatusM
  | addition
  | deletion
  | modification
  | rename (previous_path : String)
deriving DecidableEq, Repr

/-- `but_core::TreeChange`, reduced to the fields workspace.rs reads. -/
structure TreeChange where
  path : String
  status : TreeStatusM
deriving DecidableEq, Repr

/-- `but_core::UnifiedDiff`: a regular patch with hunks, or one of the
structural variants (`Binary`, `TooLarge`) that carry no renderable hunks. -/
inductive UnifiedDiff
  | patch (hunks : List DiffHunk)
  | binary
  | tooLarge
deriving DecidableEq, Repr

/-- `but_hunk_dependency::ui::HunkLock`: names a commit (in a stack) whose
content a hunk's current state depends on. -/
structure HunkLock where
  stack_id : StackId
  commit_id : ObjectId
deriving DecidableEq, Repr

/-- `but_hunk_assignment::HunkAssignment`, reduced to the fields read by
`get_file_changes`. -/
structure HunkAssignment where
  path_bytes : String
  hunk_header : Option HunkHeader
  stack_id : Option StackId
  hunk_locks : Option (List HunkLock)
deriving DecidableEq, Repr

/-- `RichHunk` of workspace.rs. -/
structure RichHunk where
  diff : String
  assigned_to_stack : Option StackId
  dependency_locks : List HunkLock
deriving DecidableEq, Repr

/-- `FileChange` of workspace.rs. -/
structure FileChange where
  path : String
  status : String
  hunks : List RichHunk
deriving DecidableEq, Repr

/-- The status string computed by `get_file_changes` from a `TreeStatus`. -/
def statusString : TreeStatusM → String
  | .addition => "added"
  | .deletion => "deleted"
  | .modification => "modified"
  | .rename previous_path => "renamed from " ++ previous_path

/-- The predicate of the assignment lookup in `get_file_changes`:
`a.path_bytes == change.path && a.hunk_header == Some(hunk.into())`. -/
def assignmentMatches (path : String) (hd : HunkHeader) (a : HunkAssignment) : Bool :=
  decide (a.path_bytes = path) && decide (a.hunk_header = some hd)

/-- The assignment lookup of `get_file_changes`:
`assignments.iter().find(|a| ...).map(|a| (a.stack_id, a.hunk_locks))`. -/
def find_hunk_assignment (assignments : List HunkAssignment) (path : String)
    (hd : HunkHeader) : Option (Option StackId × Option (List HunkLock)) :=
  (assignments.find? (assignmentMatches path hd)).map (fun a => (a.stack_id, a.hunk_locks))

/-- The per-hunk body of the `hunks.iter().map(...)` closure in
`get_file_changes`: on a match, take the stack id and
`locks.unwrap_or_default()`; otherwise `(None, vec![])`. -/
def richHunkOf (assignments : List HunkAssignment) (path : String) (hunk : DiffHunk) : RichHunk :=
  match find_hunk_assignment assignments path hunk.header with
  | some (stack_id, locks) =>
      { diff := hunk.diff, assigned_to_stack := stack_id,
        dependency_locks := locks.getD [] }
  | none =>
      { diff := hunk.diff, assigned_to_stack := none, dependency_locks := [] }

/-- `get_file_changes` of workspace.rs: emit one `FileChange` per
`UnifiedDiff::Patch` entry (all other diff forms are skipped by the
`_ => continue` arm), attaching each hunk's assignment by exact lookup. -/
def get_file_changes (changes : List (TreeChange × UnifiedDiff))
    (assignments : List HunkAssignment) : List FileChange :=
  match changes with
  | [] => []
  | (change, diff) :: rest =>
    match diff with
    | UnifiedDiff.patch hunks =>
        { path := change.path,
          status := statusString change.status,
          hunks := hunks.map (richHunkOf assignments change.path) }
          :: get_file_changes rest assignments
    | _ => get_file_changes rest assignments

/-- Helper: when no assignment-table entry matches the path and header
exactly, the lookup comes back empty. -/
theorem find_hunk_assignment_none (assignments : List HunkAssignment) (path : String)
    (hd : HunkHeader)
    (h : ∀ a ∈ assignments, ¬(a.path_bytes = path ∧ a.hunk_header = some hd)) :
    find_hunk_assignment assignments path hd = none := by
  unfold find_hunk_assignment
  rw [List.find?_eq_none.mpr, Option.map_none']
  intro a ha
  simp only [assignmentMatches, Bool.and_eq_true, decide_eq_true_eq]
  intro hcontra
  exact h a ha hcontra

/-- Helper: a successful lookup comes from an entry of the table whose path
and hunk header are exactly the requested ones. -/
theorem find_hunk_assignment_some (assignments : List HunkAssignment) (path : String)
    (hd : HunkHeader) (r : Option StackId × Option (List HunkLock))
    (hfind : find_hunk_assignment assignments path hd = some r) :
    ∃ a ∈ assignments, a.path_bytes = path ∧ a.hunk_header = some hd ∧
      r = (a.stack_id, a.hunk_locks) := by
  unfold find_hunk_assignment at hfind
  cases h : assignments.find? (assignmentMatches path hd) with
  | none => rw [h] at hfind; simp at hfind
  | some a =>
    rw [h] at hfind
    simp only [Option.map_some', Option.some.injEq] at hfind
    have hmem := List.mem_of_find?_eq_some h
    have hp := List.find?_some h
    simp only [assignmentMatches, Bool.and_eq_true, decide_eq_true_eq] at hp
    exact ⟨a, hmem, hp.1, hp.2, hfind.symm⟩

/-- Claim C6: in `get_project_status`'s file-change view, a hunk is given a
stack id and dependency locks only when some assignment-table entry matches
the change's path and the hunk's header exactly; when no entry matches both
exactly the hunk gets `(none, [])`; and every hunk emitted by
`get_file_changes` is built by exactly this lookup. -/
theorem get_file_changes_exact_assignment :
    (∀ (assignments : List HunkAssignment) (path : String) (hd : HunkHeader),
        (∀ a ∈ assignments, ¬(a.path_bytes = path ∧ a.hunk_header = some hd)) →
        find_hunk_assignment assignments path hd = none) ∧
    (∀ (assignments : List HunkAssignment) (path : String) (hd : HunkHeader) r,
        find_hunk_assignment assignments path hd = some r →
        ∃ a ∈ assignments, a.path_bytes = path ∧ a.hunk_header = some hd ∧
          r = (a.stack_id, a.hunk_locks)) ∧
    (∀ (changes : List (TreeChange × UnifiedDiff)) (assignments : List HunkAssignment)
        (fc : FileChange), fc ∈ get_file_changes changes assignments →
        ∀ rh ∈ fc.hunks, ∃ hunk : DiffHunk,
          rh = richHunkOf assignments fc.path hunk ∧
          ((∀ a ∈ assignments, ¬(a.path_bytes = fc.path ∧ a.hunk_header = some hunk.header)) →
            rh.assigned_to_stack = none ∧ rh.dependency_locks = [])) := by
  refine ⟨find_hunk_assignment_none, find_hunk_assignment_some, ?_⟩
  intro changes
  induction changes with
  | nil => intro assignments fc hfc; simp [get_file_changes] at hfc
  | cons cd rest ih =>
    intro assignments fc hfc
    obtain ⟨change, diff⟩ := cd
    cases diff with
    | patch hunks =>
      simp only [get_file_changes, List.mem_cons] at hfc
      cases hfc with
      | inl heq =>
        subst heq
        intro rh hrh
        simp only [List.mem_map] at hrh
        obtain ⟨hunk, _, hrheq⟩ := hrh
        refine ⟨hunk, hrheq.symm, ?_⟩
        intro hnone
        rw [← hrheq]
        unfold richHunkOf
        rw [find_hunk_assignment_none _ _ _ hnone]
        exact ⟨rfl, rfl⟩
      | inr hmem => exact ih assignments fc hmem
    | binary =>
      simp only [get_file_changes] at hfc
      exact ih assignments fc hfc
    | tooLarge =>
      simp only [get_file_changes] at hfc
      exact ih assignments fc hfc

/-- Concrete-input witness for the C6 theorem. -/
theorem get_file_changes_exact_assignment_witness :
    find_hunk_assignment
      [{ path_bytes := "a.txt", hunk_header := some ⟨1, 2, 3, 4⟩,
         stack_id := some 7, hunk_locks := none }]
      "b.txt" ⟨1, 2, 3, 4⟩ = none :=
  get_file_changes_exact_assignment.1 _ _ _ (by decide)

/-! ### unified_diff_for_changes (claim C9)

`tree_change.unified_diff(repo, context_lines)` is the external diff engine:
it returns `Result<Option<UnifiedDiff>>`, with `Ok(None)` for submodule
changes.  workspace.rs then runs `diff.expect("no submodule")`, which panics
on `None`; only a failing `Result` propagates as an `Err`. -/

/-- `unified_diff_for_changes` of workspace.rs, with the diff engine passed as
the oracle `udiff`.  The `collect::<Result<Vec<_>, _>>()` evaluates the
elements in order and stops at the first `Err`; an `Ok(None)` element panics
through `expect("no submodule")` when it is reached. -/
def unified_diff_for_changes (udiff : TreeChange → Except String (Option UnifiedDiff)) :
    List TreeChange → RunResult (List (TreeChange × UnifiedDiff))
  | [] => .ok []
  | c :: rest =>
    match udiff c with
    | .error e => .failed e
    | .ok none => .panicked "no submodule"
    | .ok (some d) =>
      match unified_diff_for_changes udiff rest with
      | .ok out => .ok ((c, d) :: out)
      | .failed e => .failed e
      | .panicked m => .panicked m

/-- A change standing for a submodule entry in the worktree. -/
def submoduleChange : TreeChange :=
  { path := "vendored/lib", status := TreeStatusM.modification }

/-- A diff-engine oracle that reports the submodule skip (`Ok(None)`) for
every change. -/
def udiffSkip : TreeChange → Except String (Option UnifiedDiff) :=
  fun _ => .ok none

/-- Claim C9, counterexample: a submodule change, for which the diff engine
reports a skip (`Ok(None)`), is not "skipped without error" — the
`expect("no submodule")` in `unified_diff_for_changes` panics, so the change
list is never filtered down to `[]` as the claim requires. -/
theorem unified_diff_submodule_panics :
    unified_diff_for_changes udiffSkip [submoduleChange]
        = RunResult.panicked "no submodule" ∧
    unified_diff_for_changes udiffSkip [submoduleChange]
        ≠ RunResult.ok [] := by
  constructor
  · rfl
  · decide

/-- Claim C9, amended: every pair emitted by `unified_diff_for_changes` comes
from a change for which the diff engine produced a real diff; a diff that is
not a regular patch (`Binary`, `TooLarge`) is skipped without error by
`get_file_changes`; but a submodule change — for which the diff engine
reports a skip rather than a diff — makes `unified_diff_for_changes` panic
via `expect("no submodule")` instead of being skipped. -/
theorem unified_diff_nonpatch_skipped :
    (∀ (udiff : TreeChange → Except String (Option UnifiedDiff)) changes out,
        unified_diff_for_changes udiff changes = .ok out →
        ∀ p ∈ out, udiff p.1 = .ok (some p.2)) ∧
    (∀ (c : TreeChange) (d : UnifiedDiff) rest assignments,
        (∀ hunks, d ≠ UnifiedDiff.patch hunks) →
        get_file_changes ((c, d) :: rest) assignments
          = get_file_changes rest assignments) ∧
    (∀ (udiff : TreeChange → Except String (Option UnifiedDiff)) c rest,
        udiff c = .ok none →
        unified_diff_for_changes udiff (c :: rest)
          = RunResult.panicked "no submodule") := by
  refine ⟨?_, ?_, ?_⟩
  · intro udiff changes
    induction changes with
    | nil =>
      intro out hout p hp
      simp only [unified_diff_for_changes, RunResult.ok.injEq] at hout
      subst hout
      simp at hp
    | cons c rest ih =>
      intro out hout p hp
      simp only [unified_diff_for_changes] at hout
      cases hu : udiff c with
      | error e => rw [hu] at hout; simp at hout
      | ok od =>
        cases od with
        | none => rw [hu] at hout; simp at hout
        | some d =>
          rw [hu] at hout
          cases hrest : unified_diff_for_changes udiff rest with
          | panicked m => rw [hrest] at hout; simp at hout
          | failed e => rw [hrest] at hout; simp at hout
          | ok outRest =>
            rw [hrest] at hout
            simp only [RunResult.ok.injEq] at hout
            subst hout
            rcases List.mem_cons.mp hp with heq | hmem
            · subst heq; exact hu
            · exact ih outRest hrest p hmem
  · intro c d rest assignments hnp
    cases d with
    | patch hunks => exact absurd rfl (hnp hunks)
    | binary => simp [get_file_changes]
    | tooLarge => simp [get_file_changes]
  · intro udiff c rest hskip
    simp only [unified_diff_for_changes]
    rw [hskip]

/-- Concrete-input witness for the amended C9 theorem: a binary diff is
dropped by `get_file_changes` without error. -/
theorem unified_diff_nonpatch_skipped_witness :
    get_file_changes [(submoduleChange, UnifiedDiff.binary)] []
      = get_file_changes [] [] :=
  unified_diff_nonpatch_skipped.2.1 submoduleChange UnifiedDiff.binary [] []
    (fun _ h => by cases h)

/-! ### CreateBlankCommit and MoveFileChanges (claims C1, C3)

The `Tool::call` implementations for these two tools first deserialize the
JSON parameters with `serde_json::from_value(...)...?` — a parse failure is
propagated as a hard `Err` of the call — and then wrap the inner operation's
outcome: `Ok(_) => Ok("Suceess".into())` (resp. `"Success"`),
`Err(e) => Ok(error_to_json(e, action))`.  JSON deserialization itself lives
in serde, so the parse outcome is modelled as an `Option` of the parameter
struct. -/

/-- Lift the outcome of an external fallible parse (`StackId::from_str`,
`gix::ObjectId::from_str`) into the surrounding `?`-style control flow. -/
def parseOr {α : Type} (o : Option α) (e : String) : Except String α :=
  match o with
  | some a => Except.ok a
  | none => Except.error e

/-- `CreateBlankCommitParameters` of workspace.rs. -/
structure CreateBlankCommitParameters where
  message_title : String
  message_body : String
  stack_id : String
  parent_id : String
deriving DecidableEq, Repr

/-- `but_workspace::DiffSpec`. -/
structure DiffSpec where
  path : String
  previous_path : Option String
  hunk_headers : List HunkHeader
deriving DecidableEq, Repr

/-- Oracles consumed by `create_blank_commit`: the two external id parsers and
`gitbutler_branch_actions::insert_blank_commit` (stack id, parent commit,
offset, message). -/
structure CreateBlankCommitEnv where
  parse_stack_id : String → Option StackId
  parse_object_id : String → Option ObjectId
  insert_blank_commit :
    StackId → ObjectId → Int → String → Except String (List (ObjectId × ObjectId))

/-- `create_blank_commit` of workspace.rs: parse the two ids (each `?`),
compose the message, call `insert_blank_commit(ctx, stack_id, commit_oid, -1,
Some(&message))?`, and return the commit mapping.  The UI notification that
precedes the return carries no data and is dropped here. -/
def create_blank_commit (env : CreateBlankCommitEnv)
    (params : CreateBlankCommitParameters) :
    Except String (List (ObjectId × ObjectId)) :=
  match parseOr (env.parse_stack_id params.stack_id) "invalid stack id" with
  | Except.error e => Except.error e
  | Except.ok stack_id =>
    match parseOr (env.parse_object_id params.parent_id) "invalid object id" with
    | Except.error e => Except.error e
    | Except.ok commit_oid =>
      match env.insert_blank_commit stack_id commit_oid (-1)
          (composeMessage params.message_title params.message_body) with
      | Except.error e => Except.error e
      | Except.ok commit_mapping => Except.ok commit_mapping

/-- The JSON values the two restructuring tools can hand back:
a bare JSON string, or the result envelope. -/
inductive ToolValue
  | jsonString (s : String)
  | envelope (status : String) (actionIdentifier : String) (errorDetail : Option String)
deriving DecidableEq, Repr

/-- Modelled from the spec: `error_to_json` of `crate::tool` (repository code
not under src/) wraps an error into the result envelope
(status "error", the action identifier, and the error detail). -/
def error_to_json (e : String) (action : String) : ToolValue :=
  ToolValue.envelope "error" action (some e)

/-- `<CreateBlankCommit as Tool>::call`: a parse failure is returned as a hard
`Err` through `?`; otherwise the inner outcome is wrapped — note that the
commit mapping of a successful run is discarded (`Ok(_)`) in favour of the
literal string "Suceess" (sic). -/
def CreateBlankCommit.call (env : CreateBlankCommitEnv)
    (parsed : Option CreateBlankCommitParameters) : Except String ToolValue :=
  match parsed with
  | none => Except.error "Failed to parse input parameters"
  | some params =>
    match create_blank_commit env params with
    | Except.ok _ => Except.ok (ToolValue.jsonString "Suceess")
    | Except.error e => Except.ok (error_to_json e "create_blank_commit")

/-- `MoveFileChangesParameters` of workspace.rs. -/
structure MoveFileChangesParameters where
  source_commit_id : String
  source_stack_id : String
  destination_commit_id : String
  destination_stack_id : String
  files : List String
deriving DecidableEq, Repr

/-- The result of `but_workspace::move_changes_between_commits`, reduced to
the field workspace.rs reads. -/
structure MoveChangesResult where
  replaced_commits : List (ObjectId × ObjectId)
deriving DecidableEq, Repr

/-- Oracles consumed by `move_file_changes`: the id parsers,
`but_workspace::move_changes_between_commits`,
`gitbutler_branch_actions::update_workspace_commit`, and the configured
context-line count. -/
structure MoveFileChangesEnv where
  parse_stack_id : String → Option StackId
  parse_object_id : String → Option ObjectId
  move_changes_between_commits :
    StackId → ObjectId → StackId → ObjectId → List DiffSpec → Nat →
      Except String MoveChangesResult
  update_workspace_commit : Except String Unit
  context_lines : Nat

/-- `move_file_changes` of workspace.rs: parse the four ids (each `?`), build
one path-only `DiffSpec` per file, run the move engine (`?`), recompute the
workspace commit (`?`), and return `result.replaced_commits`.  The two UI
notifications before the return carry no data and are dropped here. -/
def move_file_changes (env : MoveFileChangesEnv)
    (params : MoveFileChangesParameters) :
    Except String (List (ObjectId × ObjectId)) :=
  match parseOr (env.parse_object_id params.source_commit_id) "invalid object id" with
  | Except.error e => Except.error e
  | Except.ok source_commit_id =>
  match parseOr (env.parse_stack_id params.source_stack_id) "invalid stack id" with
  | Except.error e => Except.error e
  | Except.ok source_stack_id =>
  match parseOr (env.parse_object_id params.destination_commit_id) "invalid object id" with
  | Except.error e => Except.error e
  | Except.ok destination_commit_id =>
  match parseOr (env.parse_stack_id params.destination_stack_id) "invalid stack id" with
  | Except.error e => Except.error e
  | Except.ok destination_stack_id =>
  match env.move_changes_between_commits source_stack_id source_commit_id
      destination_stack_id destination_commit_id
      (params.files.map (fun f =>
        ({ path := f, previous_path := none, hunk_headers := [] } : DiffSpec)))
      env.context_lines with
  | Except.error e => Except.error e
  | Except.ok result =>
    match env.update_workspace_commit with
    | Except.error e => Except.error e
    | Except.ok _ => Except.ok result.replaced_commits

/-- `<MoveFileChanges as Tool>::call`: parse failure is a hard `Err`; a
successful move returns the literal string "Success", discarding the
replaced-commits list; an inner failure is wrapped into the envelope. -/
def MoveFileChanges.call (env : MoveFileChangesEnv)
    (parsed : Option MoveFileChangesParameters) : Except String ToolValue :=
  match parsed with
  | none => Except.error "Failed to parse input parameters"
  | some params =>
    match move_file_changes env params with
    | Except.ok _ => Except.ok (ToolValue.jsonString "Success")
    | Except.error e => Except.ok (error_to_json e "move_file_changes")

/-! ### Concrete instantiations used by the C1/C3 theorems -/

/-- Concrete parameters for a blank-commit insertion. -/
def cbcParamsEx : CreateBlankCommitParameters :=
  { message_title := "Split prep", message_body := "placeholder",
    stack_id := "1", parent_id := "2" }

/-- Oracle set whose engine remaps a single commit. -/
def cbcEnvOne : CreateBlankCommitEnv :=
  { parse_stack_id := fun _ => some 1,
    parse_object_id := fun _ => some 2,
    insert_blank_commit := fun _ _ _ _ => Except.ok [(2, 10)] }

/-- Oracle set whose engine remaps two commits. -/
def cbcEnvTwo : CreateBlankCommitEnv :=
  { parse_stack_id := fun _ => some 1,
    parse_object_id := fun _ => some 2,
    insert_blank_commit := fun _ _ _ _ => Except.ok [(2, 10), (3, 11)] }

/-- An oracle set whose engine rejects the insertion. -/
def cbcEnvErr : CreateBlankCommitEnv :=
  { parse_stack_id := fun _ => some 1,
    parse_object_id := fun _ => some 2,
    insert_blank_commit := fun _ _ _ _ => Except.error "conflicting content" }

/-- Concrete parameters for a move of one file. -/
def mfcParamsEx : MoveFileChangesParameters :=
  { source_commit_id := "10", source_stack_id := "1",
    destination_commit_id := "20", destination_stack_id := "2",
    files := ["util.go"] }

/-- Oracle set whose move engine remaps a single pair of commits. -/
def mfcEnvOne : MoveFileChangesEnv :=
  { parse_stack_id := fun _ => some 1,
    parse_object_id := fun _ => some 10,
    move_changes_between_commits := fun _ _ _ _ _ _ =>
      Except.ok { replaced_commits := [(10, 30)] },
    update_workspace_commit := Except.ok (),
    context_lines := 3 }

/-- Oracle set whose move engine remaps four commits across both stacks. -/
def mfcEnvTwo : MoveFileChangesEnv :=
  { parse_stack_id := fun _ => some 1,
    parse_object_id := fun _ => some 10,
    move_changes_between_commits := fun _ _ _ _ _ _ =>
      Except.ok { replaced_commits := [(10, 30), (11, 31), (12, 32), (20, 40)] },
    update_workspace_commit := Except.ok (),
    context_lines := 3 }

/-- An oracle set whose move engine rejects the move. -/
def mfcEnvErr : MoveFileChangesEnv :=
  { parse_stack_id := fun _ => some 1,
    parse_object_id := fun _ => some 10,
    move_changes_between_commits := fun _ _ _ _ _ _ =>
      Except.error "failed to move changes",
    update_workspace_commit := Except.ok (),
    context_lines := 3 }

/-- Claim C1, counterexample: on success the tool calls return the fixed JSON
string "Suceess" / "Success" to the caller, not a list of `(old_id, new_id)`
pairs — two runs whose engines produce different remap lists (of different
lengths) are indistinguishable to the caller, so the returned value cannot be
"one pair per remapped commit". -/
theorem restructuring_calls_return_fixed_string :
    CreateBlankCommit.call cbcEnvOne (some cbcParamsEx)
        = Except.ok (ToolValue.jsonString "Suceess") ∧
    CreateBlankCommit.call cbcEnvTwo (some cbcParamsEx)
        = Except.ok (ToolValue.jsonString "Suceess") ∧
    create_blank_commit cbcEnvOne cbcParamsEx ≠ create_blank_commit cbcEnvTwo cbcParamsEx ∧
    MoveFileChanges.call mfcEnvOne (some mfcParamsEx)
        = Except.ok (ToolValue.jsonString "Success") ∧
    MoveFileChanges.call mfcEnvTwo (some mfcParamsEx)
        = Except.ok (ToolValue.jsonString "Success") ∧
    move_file_changes mfcEnvOne mfcParamsEx ≠ move_file_changes mfcEnvTwo mfcParamsEx := by
  refine ⟨rfl, rfl, ?_, rfl, rfl, ?_⟩
  · have h1 : create_blank_commit cbcEnvOne cbcParamsEx = Except.ok [(2, 10)] := rfl
    have h2 : create_blank_commit cbcEnvTwo cbcParamsEx
        = Except.ok [(2, 10), (3, 11)] := rfl
    rw [h1, h2]
    intro h
    exact absurd (Except.ok.inj h) (by decide)
  · have h1 : move_file_changes mfcEnvOne mfcParamsEx = Except.ok [(10, 30)] := rfl
    have h2 : move_file_changes mfcEnvTwo mfcParamsEx
        = Except.ok [(10, 30), (11, 31), (12, 32), (20, 40)] := rfl
    rw [h1, h2]
    intro h
    exact absurd (Except.ok.inj h) (by decide)

/-- Claim C1, amended: the inner operations `create_blank_commit` and
`move_file_changes` do return the full ordered `(old_id, new_id)` list exactly
as produced by the engine (`insert_blank_commit` /
`move_changes_between_commits`), but the tool-level `call` methods discard
that list and return only the bare JSON string "Suceess" (sic) resp.
"Success" to the caller. -/
theorem remap_list_computed_then_discarded :
    (∀ (env : CreateBlankCommitEnv) (params : CreateBlankCommitParameters) sid oid pairs,
        env.parse_stack_id params.stack_id = some sid →
        env.parse_object_id params.parent_id = some oid →
        env.insert_blank_commit sid oid (-1)
            (composeMessage params.message_title params.message_body) = Except.ok pairs →
        create_blank_commit env params = Except.ok pairs) ∧
    (∀ (env : CreateBlankCommitEnv) params pairs,
        create_blank_commit env params = Except.ok pairs →
        CreateBlankCommit.call env (some params)
          = Except.ok (ToolValue.jsonString "Suceess")) ∧
    (∀ (env : MoveFileChangesEnv) (params : MoveFileChangesParameters) sc ss dc ds r,
        env.parse_object_id params.source_commit_id = some sc →
        env.parse_stack_id params.source_stack_id = some ss →
        env.parse_object_id params.destination_commit_id = some dc →
        env.parse_stack_id params.destination_stack_id = some ds →
        env.move_changes_between_commits ss sc ds dc
            (params.files.map (fun f =>
              ({ path := f, previous_path := none, hunk_headers := [] } : DiffSpec)))
            env.context_lines = Except.ok r →
        env.update_workspace_commit = Except.ok () →
        move_file_changes env params = Except.ok r.replaced_commits) ∧
    (∀ (env : MoveFileChangesEnv) params pairs,
        move_file_changes env params = Except.ok pairs →
        MoveFileChanges.call env (some params)
          = Except.ok (ToolValue.jsonString "Success")) := by
  refine ⟨?_, ?_, ?_, ?_⟩
  · intro env params sid oid pairs h1 h2 h3
    unfold create_blank_commit
    rw [h1, h2]
    simp only [parseOr]
    rw [h3]
  · intro env params pairs h
    simp only [CreateBlankCommit.call]
    rw [h]
  · intro env params sc ss dc ds r h1 h2 h3 h4 h5 h6
    unfold move_file_changes
    rw [h1, h2, h3, h4]
    simp only [parseOr]
    rw [h5, h6]
  · intro env params pairs h
    simp only [MoveFileChanges.call]
    rw [h]

/-- Concrete-input witness for the amended C1 theorem. -/
theorem remap_list_computed_then_discarded_witness :
    create_blank_commit cbcEnvTwo cbcParamsEx = Except.ok [(2, 10), (3, 11)] :=
  remap_list_computed_then_discarded.1 cbcEnvTwo cbcParamsEx 1 2 _ rfl rfl rfl

/-- Claim C3, counterexample: a parameter parse failure is not caught into an
error envelope — the `?` after `serde_json::from_value` makes the tool call
itself return a hard `Err`. -/
theorem restructuring_parse_failure_is_hard_error :
    CreateBlankCommit.call cbcEnvOne none
        = Except.error "Failed to parse input parameters" ∧
    MoveFileChanges.call mfcEnvOne none
        = Except.error "Failed to parse input parameters" :=
  ⟨rfl, rfl⟩

/-- Claim C3, amended: for CreateBlankCommit and MoveFileChanges, every
failure of the operation after parameter parsing succeeded is caught and
returned as an error envelope (status "error" with detail) rather than a hard
failure — once the parameters parse, the call always returns `Ok`; a
parameter parse failure, however, is propagated as a hard `Err` of the call
itself. -/
theorem restructuring_failures_enveloped_after_parse :
    (∀ (env : CreateBlankCommitEnv) params e,
        create_blank_commit env params = Except.error e →
        CreateBlankCommit.call env (some params)
          = Except.ok (ToolValue.envelope "error" "create_blank_commit" (some e))) ∧
    (∀ (env : CreateBlankCommitEnv) params,
        ∃ v, CreateBlankCommit.call env (some params) = Except.ok v) ∧
    (∀ (env : MoveFileChangesEnv) params e,
        move_file_changes env params = Except.error e →
        MoveFileChanges.call env (some params)
          = Except.ok (ToolValue.envelope "error" "move_file_changes" (some e))) ∧
    (∀ (env : MoveFileChangesEnv) params,
        ∃ v, MoveFileChanges.call env (some params) = Except.ok v) ∧
    (∀ env : CreateBlankCommitEnv,
        CreateBlankCommit.call env none
          = Except.error "Failed to parse input parameters") ∧
    (∀ env : MoveFileChangesEnv,
        MoveFileChanges.call env none
          = Except.error "Failed to parse input parameters") := by
  refine ⟨?_, ?_, ?_, ?_, fun _ => rfl, fun _ => rfl⟩
  · intro env params e h
    simp only [CreateBlankCommit.call]
    rw [h]
    rfl
  · intro env params
    cases h : create_blank_commit env params with
    | ok pairs =>
      refine ⟨ToolValue.jsonString "Suceess", ?_⟩
      simp only [CreateBlankCommit.call]
      rw [h]
    | error e =>
      refine ⟨error_to_json e "create_blank_commit", ?_⟩
      simp only [CreateBlankCommit.call]
      rw [h]
  · intro env params e h
    simp only [MoveFileChanges.call]
    rw [h]
    rfl
  · intro env params
    cases h : move_file_changes env params with
    | ok pairs =>
      refine ⟨ToolValue.jsonString "Success", ?_⟩
      simp only [MoveFileChanges.call]
      rw [h]
    | error e =>
      refine ⟨error_to_json e "move_file_changes", ?_⟩
      simp only [MoveFileChanges.call]
      rw [h]

/-- Concrete-input witness for the amended C3 theorem. -/
theorem restructuring_failures_enveloped_after_parse_witness :
    MoveFileChanges.call mfcEnvErr (some mfcParamsEx)
      = Except.ok (ToolValue.envelope "error" "move_file_changes"
          (some "failed to move changes")) :=
  restructuring_failures_enveloped_after_parse.2.2.1 mfcEnvErr mfcParamsEx
    "failed to move changes" rfl

/-! ### create_commit and create_branch (claims C2, C4, C8, C10)

`create_commit` is modelled as a state-and-trace function: the workspace's
stack/branch metadata (the part of `vb_state` and of the `stacks()` view that
workspace.rs reads) is explicit state, external collaborators are oracles in
the environment, and the observable side effects are logged as an ordered
event list. -/

/-- A branch as stored in the virtual-branch state: name plus overwritable
description. -/
structure BranchState where
  name : String
  description : Option String
deriving DecidableEq, Repr

/-- A stack of the workspace: stable id plus its branches.  The `heads` that
`stacks()` reports for a `StackEntry` are the branch names. -/
structure StackState where
  id : StackId
  branches : List BranchState
deriving DecidableEq, Repr

/-- The workspace metadata state (`VirtualBranchesHandle` / the in-workspace
`stacks()` view). -/
structure Workspace where
  stackList : List StackState
deriving DecidableEq, Repr

/-- `CommitParameters` of workspace.rs. -/
structure CommitParameters where
  message_title : String
  message_body : String
  branch_name : String
  branch_description : String
  files : List String
deriving DecidableEq, Repr

/-- `CreateBranchParameters` of workspace.rs. -/
structure CreateBranchParameters where
  branch_name : String
  branch_description : String
deriving DecidableEq, Repr

/-- Observable side effects of a mutating operation, in order of occurrence. -/
inductive Event
  | createdStack (id : StackId)
  | updatedBranchDescription (id : StackId) (name : String) (description : Option String)
  | preparedSnapshot (ok : Bool)
  | engineInvoked (id : StackId)
  | recordedSnapshot (engineError : Option String)
  | notified (id : StackId)
deriving DecidableEq, Repr

/-- The stack-resolution step of `create_commit` (lines 202-207):
`stacks.iter().find_map(|s| ...)` — the first in-workspace stack one of whose
head names equals `branch_name`. -/
def findStackByBranch : List StackState → String → Option StackId
  | [], _ => none
  | s :: rest, branch_name =>
    if (s.branches.map (fun b => b.name)).any (fun hn => hn == branch_name)
    then some s.id
    else findStackByBranch rest branch_name

/-- Modelled from the spec:
`gitbutler_branch_actions::create_virtual_branch` (repository code not under
src/) creates a new stack/branch pair with the requested name; the new branch
starts without a description.  Whether the call succeeds, and the id of the
new stack, are supplied by the caller's oracle. -/
def create_virtual_branch (ws : Workspace) (name : String) (fresh : StackId) : Workspace :=
  { stackList := ws.stackList ++ [{ id := fresh, branches := [{ name := name, description := none }] }] }

/-- Modelled from the spec: `gitbutler_stack`'s `Stack::update_branch` with a
`PatchReferenceUpdate` whose description field is `Some(Some(d))` (repository
code not under src/): resolve the stack by id (`vb_state.get_stack(...)?`),
then unconditionally overwrite the description of the branch with the given
name; fails when the stack or the branch does not exist. -/
def update_branch_description (ws : Workspace) (stack_id : StackId) (name : String)
    (d : Option String) : Except String Workspace :=
  match ws.stackList.find? (fun s => s.id == stack_id) with
  | none => Except.error "stack not found"
  | some s =>
    if s.branches.any (fun b => b.name == name) then
      Except.ok { stackList := ws.stackList.map (fun t =>
        if t.id == stack_id then
          { t with branches := t.branches.map (fun b =>
              if b.name == name then { b with description := d } else b) }
        else t) }
    else Except.error "branch not found"

/-- Oracles consumed by `create_commit`.  `pre_err` folds the fallible reads
before stack resolution (`ctx.gix_repo()?`, `worktree_changes(&repo)?`,
`stacks(ctx, &repo)?`); `create_virtual_branch_result` is the outcome of
`gitbutler_branch_actions::create_virtual_branch` (its payload the fresh
stack id); `engine` is `commit_engine::create_commit_simple` applied to
(filtered changes, message, stack id, branch name);
`record_snapshot_ok` is the (discarded) result of
`ctx.snapshot_commit_creation`. -/
structure CreateCommitEnv where
  pre_err : Option String
  worktree_changes : List String
  create_virtual_branch_result : Except String StackId
  prepare_snapshot_ok : Bool
  engine : List String → String → StackId → String → Except String ObjectId
  record_snapshot_ok : Bool
  has_app_handle : Bool

/-- The result triple of a `create_commit` run: the value returned (or the
panic that aborted it), the event trace, and the final workspace state. -/
structure CreateCommitRun where
  result : RunResult ObjectId
  events : List Event
  workspace : Workspace
deriving DecidableEq, Repr

/-- The error part of an engine outcome, as passed to
`ctx.snapshot_commit_creation(_, outcome.as_ref().err(), ..)`. -/
def exceptErr {α : Type} : Except String α → Option String
  | .error e => some e
  | .ok _ => none

/-- The error part of a translated result. -/
def runErr {α : Type} : RunResult α → Option String
  | .failed e => some e
  | _ => none

/-- The tail of `create_commit` once a stack id is in hand (lines 221-267):
description upsert, snapshot preparation, engine invocation, best-effort
snapshot recording (`let _ = ...`, only reached when preparation succeeded),
optional notification, and translation of the engine outcome (`outcome?`). -/
def createCommitWithStack (env : CreateCommitEnv) (ws : Workspace)
    (params : CommitParameters) (file_changes : List String) (sid : StackId)
    (events0 : List Event) : CreateCommitRun :=
  match update_branch_description ws sid params.branch_name (some params.branch_description) with
  | Except.error e => { result := .failed e, events := events0, workspace := ws }
  | Except.ok ws' =>
    { result := match env.engine file_changes
          (composeMessage params.message_title params.message_body) sid params.branch_name with
        | Except.ok o => .ok o
        | Except.error e => .failed e,
      events := events0
        ++ Event.updatedBranchDescription sid params.branch_name (some params.branch_description)
        :: Event.preparedSnapshot env.prepare_snapshot_ok
        :: Event.engineInvoked sid
        :: ((if env.prepare_snapshot_ok then
              [Event.recordedSnapshot (exceptErr (env.engine file_changes
                (composeMessage params.message_title params.message_body) sid params.branch_name))]
            else [])
            ++ (if env.has_app_handle then [Event.notified sid] else [])),
      workspace := ws' }

/-- `create_commit` of workspace.rs: filter the worktree changes to the
selected files, resolve `branch_name` against the in-workspace stacks, on a
miss create a virtual branch — `.expect("Failed to create virtual branch")`
panics when that fails — then run the common tail. -/
def create_commit (env : CreateCommitEnv) (ws : Workspace) (params : CommitParameters) :
    CreateCommitRun :=
  match env.pre_err with
  | some e => { result := .failed e, events := [], workspace := ws }
  | none =>
    match findStackByBranch ws.stackList params.branch_name with
    | some sid =>
        createCommitWithStack env ws params
          (env.worktree_changes.filter (fun p => params.files.contains p)) sid []
    | none =>
      match env.create_virtual_branch_result with
      | Except.error _ =>
          { result := .panicked "Failed to create virtual branch", events := [], workspace := ws }
      | Except.ok fresh =>
          createCommitWithStack env (create_virtual_branch ws params.branch_name fresh) params
            (env.worktree_changes.filter (fun p => params.files.contains p)) fresh
            [Event.createdStack fresh]

/-- Oracles consumed by `create_branch`: the `create_virtual_branch` outcome
and whether an app handle is attached. -/
structure CreateBranchEnv where
  create_virtual_branch_result : Except String StackId
  has_app_handle : Bool

/-- The result triple of a `create_branch` run; the returned value is the
created stack entry, reduced to its id. -/
structure CreateBranchRun where
  result : RunResult StackId
  events : List Event
  workspace : Workspace
deriving DecidableEq, Repr

/-- `create_branch` of workspace.rs: `create_virtual_branch(...)?` (an `Err`
propagates, no panic), then the same unconditional description upsert
(`vb_state.get_stack(...)?` + `update_branch`) and optional notification,
returning the created stack entry. -/
def create_branch (env : CreateBranchEnv) (ws : Workspace) (params : CreateBranchParameters) :
    CreateBranchRun :=
  match env.create_virtual_branch_result with
  | Except.error e => { result := .failed e, events := [], workspace := ws }
  | Except.ok fresh =>
    match update_branch_description (create_virtual_branch ws params.branch_name fresh)
        fresh params.branch_name (some params.branch_description) with
    | Except.error e =>
        { result := .failed e, events := [Event.createdStack fresh],
          workspace := create_virtual_branch ws params.branch_name fresh }
    | Except.ok ws'' =>
        { result := .ok fresh,
          events := Event.createdStack fresh
            :: Event.updatedBranchDescription fresh params.branch_name (some params.branch_description)
            :: (if env.has_app_handle then [Event.notified fresh] else []),
          workspace := ws'' }

/-! ### Helper lemmas about the create_commit / create_branch model -/

/-- A successful stack resolution names a stack of the workspace one of whose
branches carries the requested name. -/
theorem findStackByBranch_some (entries : List StackState) (name : String) (sid : StackId)
    (h : findStackByBranch entries name = some sid) :
    ∃ s ∈ entries, s.id = sid ∧ ∃ b ∈ s.branches, b.name = name := by
  induction entries with
  | nil => simp [findStackByBranch] at h
  | cons s rest ih =>
    rw [findStackByBranch] at h
    by_cases hc : ((s.branches.map (fun b => b.name)).any (fun hn => hn == name)) = true
    · rw [if_pos hc] at h
      obtain ⟨x, hx, hbeq⟩ := List.any_eq_true.mp hc
      obtain ⟨b, hb, hbx⟩ := List.mem_map.mp hx
      refine ⟨s, List.mem_cons_self s rest, Option.some.inj h, b, hb, ?_⟩
      rw [hbx]
      exact eq_of_beq hbeq
    · rw [if_neg hc] at h
      obtain ⟨s', hs', hrest⟩ := ih h
      exact ⟨s', List.mem_cons_of_mem s hs', hrest⟩

/-- Mapping a structure-preserving function under another map. -/
theorem map_comp_of_preserve {α β : Type} (f : α → α) (g : α → β)
    (hp : ∀ a, g (f a) = g a) (l : List α) : (l.map f).map g = l.map g := by
  induction l with
  | nil => rfl
  | cons a l ih => simp [List.map_cons, hp a, ih]

/-- A successful description upsert keeps the stack id list and leaves the
named branch carrying exactly the supplied description. -/
theorem update_branch_description_ok (ws : Workspace) (sid : StackId) (name : String)
    (d : Option String) (ws' : Workspace)
    (h : update_branch_description ws sid name d = Except.ok ws') :
    (ws'.stackList.map (fun s => s.id) = ws.stackList.map (fun s => s.id)) ∧
    ∃ s ∈ ws'.stackList, s.id = sid ∧
      ∃ b ∈ s.branches, b.name = name ∧ b.description = d := by
  unfold update_branch_description at h
  split at h
  · cases h
  · rename_i s hf
    split at h
    · rename_i ha
      have hsmem : s ∈ ws.stackList := List.mem_of_find?_eq_some hf
      have hsidb0 := List.find?_some hf
      simp only [beq_iff_eq] at hsidb0
      have hsid : s.id = sid := hsidb0
      have hws : ws' = { stackList := ws.stackList.map (fun t =>
          if t.id == sid then
            { t with branches := t.branches.map (fun b =>
                if b.name == name then { b with description := d } else b) }
          else t) } := (Except.ok.inj h).symm
      subst hws
      constructor
      · exact map_comp_of_preserve _ _ (fun a => by by_cases hc : (a.id == sid) = true <;> simp [hc]) _
      · obtain ⟨b, hb, hbeq⟩ := List.any_eq_true.mp ha
        have hsidb : (s.id == sid) = true := beq_iff_eq.mpr hsidb0
        refine ⟨_, List.mem_map_of_mem _ hsmem, ?_⟩
        rw [if_pos hsidb]
        refine ⟨hsid, ?_⟩
        refine ⟨_, List.mem_map_of_mem _ hb, ?_⟩
        rw [if_pos hbeq]
        exact ⟨eq_of_beq hbeq, rfl⟩
    · cases h

/-- Every event a `createCommitWithStack` run emits is either inherited from
`events0` or one of the five effects of the common tail. -/
theorem createCommitWithStack_events_sub (env : CreateCommitEnv) (ws : Workspace)
    (params : CommitParameters) (fc : List String) (sid : StackId) (ev0 : List Event)
    (e : Event) (h : e ∈ (createCommitWithStack env ws params fc sid ev0).events) :
    e ∈ ev0 ∨
    e = Event.updatedBranchDescription sid params.branch_name (some params.branch_description) ∨
    e = Event.preparedSnapshot env.prepare_snapshot_ok ∨
    e = Event.engineInvoked sid ∨
    (∃ eo, e = Event.recordedSnapshot eo) ∨
    e = Event.notified sid := by
  unfold createCommitWithStack at h
  cases hu : update_branch_description ws sid params.branch_name (some params.branch_description) with
  | error er => rw [hu] at h; exact Or.inl h
  | ok ws' =>
    rw [hu] at h
    simp only [List.mem_append, List.mem_cons] at h
    rcases h with h | h | h | h | h
    · exact Or.inl h
    · exact Or.inr (Or.inl h)
    · exact Or.inr (Or.inr (Or.inl h))
    · exact Or.inr (Or.inr (Or.inr (Or.inl h)))
    · rcases h with h | h
      · split at h
        · rcases List.mem_singleton.mp h with rfl
          exact Or.inr (Or.inr (Or.inr (Or.inr (Or.inl ⟨_, rfl⟩))))
        · cases h
      · split at h
        · rcases List.mem_singleton.mp h with rfl
          exact Or.inr (Or.inr (Or.inr (Or.inr (Or.inr rfl))))
        · cases h

/-- Events passed into `createCommitWithStack` survive into its trace. -/
theorem createCommitWithStack_events_mono (env : CreateCommitEnv) (ws : Workspace)
    (params : CommitParameters) (fc : List String) (sid : StackId) (ev0 : List Event)
    (e : Event) (h : e ∈ ev0) :
    e ∈ (createCommitWithStack env ws params fc sid ev0).events := by
  unfold createCommitWithStack
  cases hu : update_branch_description ws sid params.branch_name (some params.branch_description) with
  | error er => exact h
  | ok ws' => exact List.mem_append.mpr (Or.inl h)

/-- When the description upsert fails, the common tail stops: the trace is
unchanged, the result is the error, and the workspace is untouched. -/
theorem createCommitWithStack_err (env : CreateCommitEnv) (ws : Workspace)
    (params : CommitParameters) (fc : List String) (sid : StackId) (ev0 : List Event)
    (e : String)
    (hu : update_branch_description ws sid params.branch_name (some params.branch_description)
      = Except.error e) :
    (createCommitWithStack env ws params fc sid ev0).events = ev0 ∧
    (createCommitWithStack env ws params fc sid ev0).result = .failed e ∧
    (createCommitWithStack env ws params fc sid ev0).workspace = ws := by
  unfold createCommitWithStack
  rw [hu]
  exact ⟨rfl, rfl, rfl⟩

/-- When the description upsert succeeds, the common tail runs in full:
snapshot preparation strictly precedes the engine invocation, the snapshot
recording (present exactly when preparation succeeded) logs the engine's
error part, and the run's result is the engine outcome. -/
theorem createCommitWithStack_ok (env : CreateCommitEnv) (ws : Workspace)
    (params : CommitParameters) (fc : List String) (sid : StackId) (ev0 : List Event)
    (ws' : Workspace)
    (hu : update_branch_description ws sid params.branch_name (some params.branch_description)
      = Except.ok ws') :
    (createCommitWithStack env ws params fc sid ev0).events
      = (ev0 ++ [Event.updatedBranchDescription sid params.branch_name
            (some params.branch_description)])
        ++ Event.preparedSnapshot env.prepare_snapshot_ok
        :: Event.engineInvoked sid
        :: ((if env.prepare_snapshot_ok then
              [Event.recordedSnapshot (exceptErr (env.engine fc
                (composeMessage params.message_title params.message_body) sid params.branch_name))]
            else [])
            ++ (if env.has_app_handle then [Event.notified sid] else [])) ∧
    runErr (createCommitWithStack env ws params fc sid ev0).result
      = exceptErr (env.engine fc
          (composeMessage params.message_title params.message_body) sid params.branch_name) ∧
    (createCommitWithStack env ws params fc sid ev0).workspace = ws' := by
  unfold createCommitWithStack
  rw [hu]
  refine ⟨by simp, ?_, rfl⟩
  cases env.engine fc (composeMessage params.message_title params.message_body) sid
    params.branch_name <;> rfl

/-- The run's returned value ignores the snapshot oracles. -/
theorem createCommitWithStack_snapshot_frame (env : CreateCommitEnv) (ws : Workspace)
    (params : CommitParameters) (fc : List String) (sid : StackId) (ev0 : List Event)
    (p r : Bool) :
    (createCommitWithStack { env with prepare_snapshot_ok := p, record_snapshot_ok := r }
        ws params fc sid ev0).result
      = (createCommitWithStack env ws params fc sid ev0).result := by
  unfold createCommitWithStack
  cases hu : update_branch_description ws sid params.branch_name (some params.branch_description)
    <;> rfl

/-- Claim C2: a `commit` whose `branch_name` is the name of a branch head of
some in-workspace stack creates no new stack and uses that existing stack's id
for the commit; when no stack carries such a branch, a new stack/branch pair
with that name is created. -/
theorem create_commit_stack_resolution :
    (∀ (env : CreateCommitEnv) (ws : Workspace) (params : CommitParameters) (sid : StackId),
        env.pre_err = none →
        findStackByBranch ws.stackList params.branch_name = some sid →
        (∃ s ∈ ws.stackList, s.id = sid ∧ ∃ b ∈ s.branches, b.name = params.branch_name) ∧
        (∀ i, Event.createdStack i ∉ (create_commit env ws params).events) ∧
        ((create_commit env ws params).workspace.stackList.map (fun s => s.id)
            = ws.stackList.map (fun s => s.id)) ∧
        (∀ j, Event.engineInvoked j ∈ (create_commit env ws params).events → j = sid)) ∧
    (∀ (env : CreateCommitEnv) (ws : Workspace) (params : CommitParameters) (fresh : StackId),
        env.pre_err = none →
        findStackByBranch ws.stackList params.branch_name = none →
        env.create_virtual_branch_result = Except.ok fresh →
        Event.createdStack fresh ∈ (create_commit env ws params).events ∧
        ∃ s ∈ (create_commit env ws params).workspace.stackList,
          s.id = fresh ∧ ∃ b ∈ s.branches, b.name = params.branch_name) := by
  constructor
  · intro env ws params sid hpre hfind
    have hred : create_commit env ws params
        = createCommitWithStack env ws params
            (env.worktree_changes.filter (fun p => params.files.contains p)) sid [] := by
      unfold create_commit
      rw [hpre, hfind]
    refine ⟨findStackByBranch_some _ _ _ hfind, ?_, ?_, ?_⟩
    · intro i hmem
      rw [hred] at hmem
      rcases createCommitWithStack_events_sub _ _ _ _ _ _ _ hmem with h | h | h | h | ⟨eo, h⟩ | h
      · cases h
      · cases h
      · cases h
      · cases h
      · cases h
      · cases h
    · rw [hred]
      cases hu : update_branch_description ws sid params.branch_name
          (some params.branch_description) with
      | error e => rw [(createCommitWithStack_err env ws params _ sid [] e hu).2.2]
      | ok ws' =>
        rw [(createCommitWithStack_ok env ws params _ sid [] ws' hu).2.2]
        exact (update_branch_description_ok ws sid _ _ ws' hu).1
    · intro j hmem
      rw [hred] at hmem
      rcases createCommitWithStack_events_sub _ _ _ _ _ _ _ hmem with h | h | h | h | ⟨eo, h⟩ | h
      · cases h
      · cases h
      · cases h
      · exact Event.engineInvoked.inj h
      · cases h
      · cases h
  · intro env ws params fresh hpre hfind hcvb
    have hred : create_commit env ws params
        = createCommitWithStack env (create_virtual_branch ws params.branch_name fresh) params
            (env.worktree_changes.filter (fun p => params.files.contains p)) fresh
            [Event.createdStack fresh] := by
      unfold create_commit
      rw [hpre, hfind, hcvb]
    constructor
    · rw [hred]
      exact createCommitWithStack_events_mono _ _ _ _ _ _ _ (List.mem_singleton_self _)
    · rw [hred]
      cases hu : update_branch_description (create_virtual_branch ws params.branch_name fresh)
          fresh params.branch_name (some params.branch_description) with
      | error e =>
        rw [(createCommitWithStack_err _ _ _ _ _ _ e hu).2.2]
        refine ⟨{ id := fresh, branches := [{ name := params.branch_name, description := none }] },
          ?_, rfl, ?_⟩
        · show _ ∈ ws.stackList ++ [_]
          exact List.mem_append.mpr (Or.inr (List.mem_singleton_self _))
        · exact ⟨_, List.mem_singleton_self _, rfl⟩
      | ok ws' =>
        rw [(createCommitWithStack_ok _ _ _ _ _ _ ws' hu).2.2]
        obtain ⟨_, s, hs, hsid, b, hb, hbname, _⟩ := update_branch_description_ok _ _ _ _ _ hu
        exact ⟨s, hs, hsid, b, hb, hbname⟩

/-- Claim C4: after every successful `commit` and `create_branch` invocation
the target branch's description equals the supplied `branch_description`
exactly — a full overwrite of any previous description. -/
theorem branch_description_full_overwrite :
    (∀ (env : CreateCommitEnv) (ws : Workspace) (params : CommitParameters) (o : ObjectId),
        (create_commit env ws params).result = RunResult.ok o →
        ∃ s ∈ (create_commit env ws params).workspace.stackList,
          ∃ b ∈ s.branches, b.name = params.branch_name ∧
            b.description = some params.branch_description) ∧
    (∀ (env : CreateBranchEnv) (ws : Workspace) (params : CreateBranchParameters) (sid : StackId),
        (create_branch env ws params).result = RunResult.ok sid →
        ∃ s ∈ (create_branch env ws params).workspace.stackList, s.id = sid ∧
          ∃ b ∈ s.branches, b.name = params.branch_name ∧
            b.description = some params.branch_description) := by
  constructor
  · intro env ws params o hok
    cases hpre : env.pre_err with
    | some e =>
      have hres : (create_commit env ws params).result = .failed e := by
        unfold create_commit; rw [hpre]
      rw [hres] at hok; cases hok
    | none =>
      cases hfind : findStackByBranch ws.stackList params.branch_name with
      | some sid =>
        have hred : create_commit env ws params
            = createCommitWithStack env ws params
                (env.worktree_changes.filter (fun p => params.files.contains p)) sid [] := by
          unfold create_commit; rw [hpre, hfind]
        rw [hred] at hok ⊢
        cases hu : update_branch_description ws sid params.branch_name
            (some params.branch_description) with
        | error e =>
          rw [(createCommitWithStack_err _ _ _ _ _ _ e hu).2.1] at hok; cases hok
        | ok ws' =>
          rw [(createCommitWithStack_ok _ _ _ _ _ _ ws' hu).2.2]
          obtain ⟨_, s, hs, _, b, hb, hbname, hbdesc⟩ := update_branch_description_ok _ _ _ _ _ hu
          exact ⟨s, hs, b, hb, hbname, hbdesc⟩
      | none =>
        cases hcvb : env.create_virtual_branch_result with
        | error e =>
          have hres : (create_commit env ws params).result
              = .panicked "Failed to create virtual branch" := by
            unfold create_commit; rw [hpre, hfind, hcvb]
          rw [hres] at hok; cases hok
        | ok fresh =>
          have hred : create_commit env ws params
              = createCommitWithStack env (create_virtual_branch ws params.branch_name fresh)
                  params (env.worktree_changes.filter (fun p => params.files.contains p)) fresh
                  [Event.createdStack fresh] := by
            unfold create_commit; rw [hpre, hfind, hcvb]
          rw [hred] at hok ⊢
          cases hu : update_branch_description (create_virtual_branch ws params.branch_name fresh)
              fresh params.branch_name (some params.branch_description) with
          | error e =>
            rw [(createCommitWithStack_err _ _ _ _ _ _ e hu).2.1] at hok; cases hok
          | ok ws' =>
            rw [(createCommitWithStack_ok _ _ _ _ _ _ ws' hu).2.2]
            obtain ⟨_, s, hs, _, b, hb, hbname, hbdesc⟩ :=
              update_branch_description_ok _ _ _ _ _ hu
            exact ⟨s, hs, b, hb, hbname, hbdesc⟩
  · intro env ws params sid hok
    cases hcvb : env.create_virtual_branch_result with
    | error e =>
      have hres : (create_branch env ws params).result = .failed e := by
        unfold create_branch; rw [hcvb]
      rw [hres] at hok; cases hok
    | ok fresh =>
      cases hu : update_branch_description (create_virtual_branch ws params.branch_name fresh)
          fresh params.branch_name (some params.branch_description) with
      | error e =>
        have hres : (create_branch env ws params).result = .failed e := by
          simp only [create_branch, hcvb, hu]
        rw [hres] at hok; cases hok
      | ok ws'' =>
        have hres : (create_branch env ws params).result = .ok fresh := by
          simp only [create_branch, hcvb, hu]
        have hws : (create_branch env ws params).workspace = ws'' := by
          simp only [create_branch, hcvb, hu]
        rw [hres] at hok
        have hsid : sid = fresh := (RunResult.ok.inj hok).symm
        rw [hws, hsid]
        obtain ⟨_, s, hs, hsfresh, b, hb, hbname, hbdesc⟩ :=
          update_branch_description_ok _ _ _ _ _ hu
        exact ⟨s, hs, hsfresh, b, hb, hbname, hbdesc⟩

/-- Claim C8: in every `commit` invocation that reaches the
commit-construction engine, the snapshot is prepared strictly before the
engine runs, the snapshot outcome (the engine's error part) is recorded after
the engine returns regardless of the engine's success — recording happens
exactly when preparation succeeded — and the snapshot oracles never alter the
value returned to the caller. -/
theorem create_commit_snapshot_best_effort :
    (∀ (env : CreateCommitEnv) (ws : Workspace) (params : CommitParameters) (sid : StackId),
        Event.engineInvoked sid ∈ (create_commit env ws params).events →
        (∃ pre post, (create_commit env ws params).events
            = pre ++ Event.preparedSnapshot env.prepare_snapshot_ok
              :: Event.engineInvoked sid :: post) ∧
        (env.prepare_snapshot_ok = true →
          Event.recordedSnapshot (runErr (create_commit env ws params).result)
            ∈ (create_commit env ws params).events)) ∧
    (∀ (env : CreateCommitEnv) (ws : Workspace) (params : CommitParameters) (p r : Bool),
        (create_commit { env with prepare_snapshot_ok := p, record_snapshot_ok := r }
            ws params).result
          = (create_commit env ws params).result) := by
  constructor
  · intro env ws params sid hmem
    cases hpre : env.pre_err with
    | some e =>
      have hev : (create_commit env ws params).events = [] := by
        unfold create_commit; rw [hpre]
      rw [hev] at hmem; cases hmem
    | none =>
      cases hfind : findStackByBranch ws.stackList params.branch_name with
      | some sid' =>
        have hred : create_commit env ws params
            = createCommitWithStack env ws params
                (env.worktree_changes.filter (fun p => params.files.contains p)) sid' [] := by
          unfold create_commit; rw [hpre, hfind]
        rw [hred] at hmem ⊢
        cases hu : update_branch_description ws sid' params.branch_name
            (some params.branch_description) with
        | error e =>
          rw [(createCommitWithStack_err _ _ _ _ _ _ e hu).1] at hmem; cases hmem
        | ok ws' =>
          have hsid : sid = sid' := by
            rcases createCommitWithStack_events_sub _ _ _ _ _ _ _ hmem
              with h | h | h | h | ⟨eo, h⟩ | h
            · cases h
            · cases h
            · cases h
            · exact Event.engineInvoked.inj h
            · cases h
            · cases h
          subst hsid
          obtain ⟨hshape, hrun, _⟩ := createCommitWithStack_ok env ws params _ sid [] ws' hu
          refine ⟨⟨_, _, hshape⟩, ?_⟩
          intro hps
          rw [hrun, hshape]
          simp [hps]
      | none =>
        cases hcvb : env.create_virtual_branch_result with
        | error e =>
          have hev : (create_commit env ws params).events = [] := by
            unfold create_commit; rw [hpre, hfind, hcvb]
          rw [hev] at hmem; cases hmem
        | ok fresh =>
          have hred : create_commit env ws params
              = createCommitWithStack env (create_virtual_branch ws params.branch_name fresh)
                  params (env.worktree_changes.filter (fun p => params.files.contains p)) fresh
                  [Event.createdStack fresh] := by
            unfold create_commit; rw [hpre, hfind, hcvb]
          rw [hred] at hmem ⊢
          cases hu : update_branch_description (create_virtual_branch ws params.branch_name fresh)
              fresh params.branch_name (some params.branch_description) with
          | error e =>
            rw [(createCommitWithStack_err _ _ _ _ _ _ e hu).1] at hmem
            rcases List.mem_singleton.mp hmem with h
            cases h
          | ok ws' =>
            have hsid : sid = fresh := by
              rcases createCommitWithStack_events_sub _ _ _ _ _ _ _ hmem
                with h | h | h | h | ⟨eo, h⟩ | h
              · rcases List.mem_singleton.mp h with h'; cases h'
              · cases h
              · cases h
              · exact Event.engineInvoked.inj h
              · cases h
              · cases h
            subst hsid
            obtain ⟨hshape, hrun, _⟩ := createCommitWithStack_ok env _ params _ sid _ ws' hu
            refine ⟨⟨_, _, hshape⟩, ?_⟩
            intro hps
            rw [hrun, hshape]
            simp [hps]
  · intro env ws params p r
    unfold create_commit
    cases hpre : env.pre_err with
    | some e => rfl
    | none =>
      cases hfind : findStackByBranch ws.stackList params.branch_name with
      | some sid => exact createCommitWithStack_snapshot_frame env ws params _ sid [] p r
      | none =>
        cases hcvb : env.create_virtual_branch_result with
        | error e => rfl
        | ok fresh => exact createCommitWithStack_snapshot_frame env _ params _ fresh _ p r

/-- Claim C10: when `branch_name` matches no existing stack and the
virtual-branch creation fails, `create_commit` panics through `expect`
instead of returning an error result, so the error-envelope path is
unreachable for this failure. -/
theorem create_commit_panics_on_cvb_failure :
    ∀ (env : CreateCommitEnv) (ws : Workspace) (params : CommitParameters) (e : String),
      env.pre_err = none →
      findStackByBranch ws.stackList params.branch_name = none →
      env.create_virtual_branch_result = Except.error e →
      (create_commit env ws params).result
          = RunResult.panicked "Failed to create virtual branch" ∧
      ∀ e2, (create_commit env ws params).result ≠ RunResult.failed e2 := by
  intro env ws params e hpre hfind hcvb
  have h : (create_commit env ws params).result
      = RunResult.panicked "Failed to create virtual branch" := by
    unfold create_commit
    rw [hpre, hfind, hcvb]
  exact ⟨h, fun e2 hbad => by rw [h] at hbad; cases hbad⟩

/-! ### Concrete instantiations used by the C2/C4/C8/C10 witnesses -/

/-- Concrete commit parameters targeting the branch "fix-login". -/
def commitParamsEx : CommitParameters :=
  { message_title := "Fix login", message_body := "Adjust token check",
    branch_name := "fix-login", branch_description := "login fixes",
    files := ["auth.go"] }

/-- A stack (id 3) that already carries a branch named "fix-login". -/
def wsExStack : StackState :=
  { id := 3, branches := [{ name := "fix-login", description := some "old text" }] }

/-- A workspace whose stack 3 already carries a branch named "fix-login". -/
def wsEx : Workspace := { stackList := [wsExStack] }

/-- A workspace without any stack. -/
def wsEmptyEx : Workspace := { stackList := [] }

/-- An oracle set under which every step of `create_commit` succeeds. -/
def ccEnvEx : CreateCommitEnv :=
  { pre_err := none,
    worktree_changes := ["auth.go", "readme.md"],
    create_virtual_branch_result := Except.ok 5,
    prepare_snapshot_ok := true,
    engine := fun _ _ _ _ => Except.ok 42,
    record_snapshot_ok := true,
    has_app_handle := true }

/-- The same oracle set, with the virtual-branch creation failing. -/
def ccEnvCvbFail : CreateCommitEnv :=
  { ccEnvEx with create_virtual_branch_result := Except.error "locked" }

/-- Concrete-input witness for the C2 theorem. -/
theorem create_commit_stack_resolution_witness :
    Event.createdStack 5 ∈ (create_commit ccEnvEx wsEmptyEx commitParamsEx).events :=
  (create_commit_stack_resolution.2 ccEnvEx wsEmptyEx commitParamsEx 5 rfl rfl rfl).1

/-- Concrete-input witness for the C4 theorem. -/
theorem branch_description_full_overwrite_witness :
    ∃ s ∈ (create_commit ccEnvEx wsEx commitParamsEx).workspace.stackList,
      ∃ b ∈ s.branches, b.name = commitParamsEx.branch_name ∧
        b.description = some commitParamsEx.branch_description :=
  branch_description_full_overwrite.1 ccEnvEx wsEx commitParamsEx 42 rfl

/-- Concrete-input witness for the C8 theorem. -/
theorem create_commit_snapshot_best_effort_witness :
    Event.recordedSnapshot (runErr (create_commit ccEnvEx wsEx commitParamsEx).result)
      ∈ (create_commit ccEnvEx wsEx commitParamsEx).events :=
  (create_commit_snapshot_best_effort.1 ccEnvEx wsEx commitParamsEx 3 (by decide)).2 rfl

/-- Concrete-input witness for the C10 theorem. -/
theorem create_commit_panics_on_cvb_failure_witness :
    (create_commit ccEnvCvbFail wsEmptyEx commitParamsEx).result
      = RunResult.panicked "Failed to create virtual branch" :=
  (create_commit_panics_on_cvb_failure ccEnvCvbFail wsEmptyEx commitParamsEx "locked"
    rfl rfl rfl).1

/-! ### amend (claim C5)

`amend_commit_inner` filters the pending worktree changes by the `files`
selection, composes the message, parses the stack and commit ids (each `?`),
and hands everything to the commit-construction engine with destination
"amend this commit".  The embedding returns a trace of the engine invocation
(the arguments it received and its outcome); the Rust function's own return
value is the trace's `outcome` field. -/

/-- `AmendParameters` of workspace.rs. -/
structure AmendParameters where
  commit_id : String
  message_title : String
  message_body : String
  stack_id : String
  files : List String
deriving DecidableEq, Repr

/-- Oracles consumed by `amend_commit_inner`: `pre_err` folds the fallible
reads before the filter (`ctx.gix_repo()?`, `worktree_changes(&repo)?`), the
id parsers are external, and `engine` is
`create_commit_and_update_refs_with_project` applied to (amended commit id,
new message, filtered changes). -/
structure AmendEnv where
  pre_err : Option String
  worktree_changes : List String
  parse_stack_id : String → Option StackId
  parse_object_id : String → Option ObjectId
  engine : ObjectId → Option String → List String → Except String ObjectId
  has_app_handle : Bool

/-- The recorded engine invocation of an `amend_commit_inner` run. -/
structure AmendTrace where
  file_changes : List String
  message : String
  stack_id : StackId
  commit_id : ObjectId
  outcome : Except String ObjectId

/-- `amend_commit_inner` of workspace.rs (parse failures and pre-failures
propagate as `Err`; on success the engine invocation is recorded). -/
def amend_commit_inner (env : AmendEnv) (params : AmendParameters) :
    Except String AmendTrace :=
  match env.pre_err with
  | some e => Except.error e
  | none =>
    match parseOr (env.parse_stack_id params.stack_id) "invalid stack id" with
    | Except.error e => Except.error e
    | Except.ok stack_id =>
      match parseOr (env.parse_object_id params.commit_id) "invalid object id" with
      | Except.error e => Except.error e
      | Except.ok commit_id =>
        Except.ok
          { file_changes := env.worktree_changes.filter (fun p => params.files.contains p),
            message := composeMessage params.message_title params.message_body,
            stack_id := stack_id,
            commit_id := commit_id,
            outcome := env.engine commit_id
              (some (composeMessage params.message_title params.message_body))
              (env.worktree_changes.filter (fun p => params.files.contains p)) }

/-- Claim C5: an `amend` invocation with an empty `files` selection passes an
empty set of file changes to the commit-construction engine, so only the
commit message changes. -/
theorem amend_empty_selection_message_only :
    ∀ (env : AmendEnv) (params : AmendParameters) (t : AmendTrace),
      params.files = [] →
      amend_commit_inner env params = Except.ok t →
      t.file_changes = [] ∧
      t.outcome = env.engine t.commit_id (some t.message) [] := by
  intro env params t hfiles hok
  unfold amend_commit_inner at hok
  split at hok
  · cases hok
  · split at hok
    · cases hok
    · rename_i stack_id hsid
      split at hok
      · cases hok
      · rename_i commit_id hcid
        have hfc : env.worktree_changes.filter (fun p => params.files.contains p) = [] := by
          rw [hfiles]
          simp
        have ht := Except.ok.inj hok
        subst ht
        refine ⟨hfc, ?_⟩
        show env.engine commit_id (some (composeMessage params.message_title params.message_body))
            (env.worktree_changes.filter (fun p => params.files.contains p))
          = env.engine commit_id (some (composeMessage params.message_title params.message_body)) []
        rw [hfc]

/-- Concrete parameters for a message-only amend. -/
def amendParamsEx : AmendParameters :=
  { commit_id := "10", message_title := "Reword", message_body := "Clarify intent",
    stack_id := "1", files := [] }

/-- Oracles under which the amend engine succeeds. -/
def amendEnvEx : AmendEnv :=
  { pre_err := none,
    worktree_changes := ["auth.go"],
    parse_stack_id := fun _ => some 1,
    parse_object_id := fun _ => some 10,
    engine := fun _ _ _ => Except.ok 99,
    has_app_handle := false }

/-- The trace `amend_commit_inner` produces for the concrete amend. -/
def amendTraceEx : AmendTrace :=
  { file_changes := ["auth.go"].filter (fun p => ([] : List String).contains p),
    message := composeMessage "Reword" "Clarify intent",
    stack_id := 1,
    commit_id := 10,
    outcome := (fun (_ : ObjectId) (_ : Option String) (_ : List String) => Except.ok 99)
      10 (some (composeMessage "Reword" "Clarify intent"))
      (["auth.go"].filter (fun p => ([] : List String).contains p)) }

/-- Concrete-input witness for the C5 theorem. -/
theorem amend_empty_selection_message_only_witness :
    amendTraceEx.file_changes = [] :=
  (amend_empty_selection_message_only amendEnvEx amendParamsEx amendTraceEx rfl rfl).1

/-! ### entries_to_simple_stacks (claim C7)

`vb_state.get_stack(entry.id)?` and
`but_workspace::local_and_remote_commits(ctx, repo, branch, &stack)?` are the
external reads; they are passed as the oracles `getStack` and `commitsOf`
(the latter keyed by stack id and branch name). -/

/-- `but_workspace::ui::StackEntry`, reduced to the fields read by
`entries_to_simple_stacks` (`entry.id` and `entry.name()`). -/
structure StackEntryM where
  id : StackId
  name : String
deriving DecidableEq, Repr

/-- A branch of a `gitbutler_stack::Stack`: name, description and the
archived flag. -/
structure FullBranch where
  name : String
  description : Option String
  archived : Bool
deriving DecidableEq, Repr

/-- A `gitbutler_stack::Stack` as read by `entries_to_simple_stacks`. -/
structure FullStack where
  id : StackId
  branches : List FullBranch
deriving DecidableEq, Repr

/-- `but_workspace::ui::Commit`, reduced to the fields `SimpleCommit::from`
reads. -/
structure CommitUi where
  id : ObjectId
  message : String
deriving DecidableEq, Repr

/-- `SimpleCommit` of workspace.rs. -/
structure SimpleCommit where
  id : ObjectId
  message_title : String
  message_body : String
deriving DecidableEq, Repr

/-- `SimpleBranch` of workspace.rs. -/
structure SimpleBranch where
  name : String
  description : Option String
  commits : List SimpleCommit
deriving DecidableEq, Repr

/-- `SimpleStack` of workspace.rs. -/
structure SimpleStack where
  id : StackId
  name : String
  branches : List SimpleBranch
deriving DecidableEq, Repr

/-- Rust's `str::lines()`: split on a line feed, drop the final empty piece
produced by a trailing line feed, and strip one trailing carriage return from
each line. -/
def rustLines (s : String) : List String :=
  if s = "" then []
  else
    (if s.endsWith "\n" then (s.splitOn "\n").dropLast else s.splitOn "\n").map
      (fun l => if l.endsWith "\r" then l.dropRight 1 else l)

/-- The `while message_body.starts_with ...` loop of `SimpleCommit::from`:
remove leading line feeds and carriage-return/line-feed pairs. -/
def stripLeadingNewlines : List Char → List Char
  | '\n' :: rest => stripLeadingNewlines rest
  | '\r' :: '\n' :: rest => stripLeadingNewlines rest
  | l => l

/-- `SimpleCommit::from(but_workspace::ui::Commit)`: the first line becomes
the title, the remaining lines joined by line feeds become the body, with
leading blank lines stripped. -/
def SimpleCommit.ofUi (c : CommitUi) : SimpleCommit :=
  { id := c.id,
    message_title := (rustLines c.message).headD "",
    message_body := String.mk (stripLeadingNewlines
      (String.intercalate "\n" (rustLines c.message).tail).toList) }

/-- The inner `for branch in branches` loop of `entries_to_simple_stacks`:
fetch the branch's local and remote commits (`?`), skip the branch when they
are empty, otherwise emit a `SimpleBranch`. -/
def branchesToSimple (sid : StackId)
    (commitsOf : StackId → String → Except String (List CommitUi)) :
    List FullBranch → Except String (List SimpleBranch)
  | [] => Except.ok []
  | branch :: rest =>
    match commitsOf sid branch.name with
    | Except.error e => Except.error e
    | Except.ok commits =>
      match branchesToSimple sid commitsOf rest with
      | Except.error e => Except.error e
      | Except.ok tailOut =>
        if commits.isEmpty then Except.ok tailOut
        else Except.ok
          ({ name := branch.name,
             description := branch.description,
             commits := commits.map SimpleCommit.ofUi } :: tailOut)

/-- `entries_to_simple_stacks` of workspace.rs: resolve each entry's stack
(`?`), filter out archived branches, build the simple branches, and skip the
stack entirely when none of its branches survived. -/
def entries_to_simple_stacks (entries : List StackEntryM)
    (getStack : StackId → Option FullStack)
    (commitsOf : StackId → String → Except String (List CommitUi)) :
    Except String (List SimpleStack) :=
  match entries with
  | [] => Except.ok []
  | entry :: rest =>
    match getStack entry.id with
    | none => Except.error "stack not found"
    | some stack =>
      match branchesToSimple entry.id commitsOf
          (stack.branches.filter (fun b => !b.archived)) with
      | Except.error e => Except.error e
      | Except.ok simple_branches =>
        match entries_to_simple_stacks rest getStack commitsOf with
        | Except.error e => Except.error e
        | Except.ok stacksRest =>
          if simple_branches.isEmpty then Except.ok stacksRest
          else Except.ok
            ({ id := entry.id,
               name := entry.name,
               branches := simple_branches } :: stacksRest)

/-- Helper: every simple branch the inner loop emits is nonempty and stems
from an input branch with a nonempty commit list. -/
theorem branchesToSimple_ok (sid : StackId)
    (commitsOf : StackId → String → Except String (List CommitUi)) :
    ∀ (branches : List FullBranch) (out : List SimpleBranch),
      branchesToSimple sid commitsOf branches = Except.ok out →
      ∀ sb ∈ out, sb.commits ≠ [] ∧
        ∃ b ∈ branches, b.name = sb.name ∧ b.description = sb.description ∧
          ∃ commits, commitsOf sid b.name = Except.ok commits ∧ commits ≠ [] ∧
            sb.commits = commits.map SimpleCommit.ofUi := by
  intro branches
  induction branches with
  | nil =>
    intro out hout sb hsb
    have h0 : out = [] := (Except.ok.inj hout).symm ▸ rfl
    subst h0
    cases hsb
  | cons b rest ih =>
    intro out hout sb hsb
    unfold branchesToSimple at hout
    split at hout
    · cases hout
    · rename_i commits hcom
      split at hout
      · cases hout
      · rename_i tailOut hrest
        split at hout
        · rename_i hemp
          have h0 : tailOut = out := Except.ok.inj hout
          subst h0
          obtain ⟨hne, b', hb', hrest'⟩ := ih tailOut hrest sb hsb
          exact ⟨hne, b', List.mem_cons_of_mem _ hb', hrest'⟩
        · rename_i hemp
          have hcne : commits ≠ [] := by
            intro h0
            subst h0
            exact hemp rfl
          have h0 : ({ name := b.name,
                       description := b.description,
                       commits := commits.map SimpleCommit.ofUi } : SimpleBranch)
              :: tailOut = out :=
            Except.ok.inj hout
          subst h0
          rcases List.mem_cons.mp hsb with rfl | hsb'
          · refine ⟨?_, b, List.mem_cons_self _ _, rfl, rfl, commits, hcom, hcne, rfl⟩
            simp [hcne]
          · obtain ⟨hne, b', hb', hrest'⟩ := ih tailOut hrest sb hsb'
            exact ⟨hne, b', List.mem_cons_of_mem _ hb', hrest'⟩

/-- Claim C7: in `get_project_status`'s stack view, archived branches are
excluded, branches with zero (local or remote) commits are omitted from their
stack, and stacks whose surviving branch list is empty are omitted entirely:
every emitted stack has a nonempty branch list, every emitted branch has a
nonempty commit list, and each emitted branch stems from a non-archived
branch of its entry's stack with a nonempty commit oracle answer. -/
theorem entries_to_simple_stacks_filtering :
    ∀ (entries : List StackEntryM) (getStack : StackId → Option FullStack)
      (commitsOf : StackId → String → Except String (List CommitUi))
      (out : List SimpleStack),
      entries_to_simple_stacks entries getStack commitsOf = Except.ok out →
      ∀ ss ∈ out,
        ss.branches ≠ [] ∧
        (∀ sb ∈ ss.branches, sb.commits ≠ []) ∧
        ∃ entry ∈ entries, ss.id = entry.id ∧ ss.name = entry.name ∧
          ∃ stack, getStack entry.id = some stack ∧
            ∀ sb ∈ ss.branches, ∃ b ∈ stack.branches, b.archived = false ∧
              b.name = sb.name ∧
              ∃ commits, commitsOf entry.id b.name = Except.ok commits ∧ commits ≠ [] ∧
                sb.commits = commits.map SimpleCommit.ofUi := by
  intro entries getStack commitsOf
  induction entries with
  | nil =>
    intro out hout ss hss
    have h0 : out = [] := (Except.ok.inj hout).symm ▸ rfl
    subst h0
    cases hss
  | cons entry rest ih =>
    intro out hout ss hss
    unfold entries_to_simple_stacks at hout
    split at hout
    · cases hout
    · rename_i stack hget
      split at hout
      · cases hout
      · rename_i simple_branches hsb
        split at hout
        · cases hout
        · rename_i stacksRest hrest
          split at hout
          · rename_i hemp
            have h0 : stacksRest = out := Except.ok.inj hout
            subst h0
            obtain ⟨hne, hcomne, entry', he', hrest'⟩ := ih stacksRest hrest ss hss
            exact ⟨hne, hcomne, entry', List.mem_cons_of_mem _ he', hrest'⟩
          · rename_i hemp
            have h0 : ({ id := entry.id,
                         name := entry.name,
                         branches := simple_branches } : SimpleStack)
                :: stacksRest = out :=
              Except.ok.inj hout
            subst h0
            rcases List.mem_cons.mp hss with rfl | hss'
            · refine ⟨?_, ?_, entry, List.mem_cons_self _ _, rfl, rfl, stack, hget, ?_⟩
              · intro h0
                have : simple_branches = [] := h0
                subst this
                exact hemp rfl
              · intro sb hsb'
                exact (branchesToSimple_ok _ _ _ _ hsb sb hsb').1
              · intro sb hsb'
                obtain ⟨_, b, hb, hbname, _, commits, hcom, hcne, hmap⟩ :=
                  branchesToSimple_ok _ _ _ _ hsb sb hsb'
                have hbf := List.mem_filter.mp hb
                refine ⟨b, hbf.1, ?_, hbname, commits, hcom, hcne, hmap⟩
                have := hbf.2
                simp only [Bool.not_eq_true'] at this
                exact this
            · obtain ⟨hne, hcomne, entry', he', hrest'⟩ := ih stacksRest hrest ss hss'
              exact ⟨hne, hcomne, entry', List.mem_cons_of_mem _ he', hrest'⟩

/-- Concrete entry, stack, branches and commits for the C7 witness. -/
def entryEx : StackEntryM := { id := 3, name := "stack-a" }

/-- A live branch of the concrete stack. -/
def fullBranchLive : FullBranch :=
  { name := "fix-login", description := some "login fixes", archived := false }

/-- An archived branch of the concrete stack. -/
def fullBranchArchived : FullBranch :=
  { name := "old-work", description := none, archived := true }

/-- The concrete stack behind entry 3. -/
def fullStackEx : FullStack := { id := 3, branches := [fullBranchLive, fullBranchArchived] }

/-- The stack-resolution oracle for the C7 witness. -/
def getStackEx : StackId → Option FullStack :=
  fun i => if i = 3 then some fullStackEx else none

/-- A concrete commit of the live branch. -/
def commitUiEx : CommitUi := { id := 7, message := "Fix login\n\nAdjust token check" }

/-- The commit oracle for the C7 witness: one commit on "fix-login", none
elsewhere. -/
def commitsOfEx : StackId → String → Except String (List CommitUi) :=
  fun _ n => if n = "fix-login" then Except.ok [commitUiEx] else Except.ok []

/-- The simple branch the aggregator emits for the concrete input. -/
def simpleBranchEx : SimpleBranch :=
  { name := "fix-login", description := some "login fixes",
    commits := [commitUiEx].map SimpleCommit.ofUi }

/-- The simple stack the aggregator emits for the concrete input. -/
def simpleStackEx : SimpleStack := { id := 3, name := "stack-a", branches := [simpleBranchEx] }

/-- Concrete-input witness for the C7 theorem. -/
theorem entries_to_simple_stacks_filtering_witness :
    simpleStackEx.branches ≠ [] :=
  (entries_to_simple_stacks_filtering [entryEx] getStackEx commitsOfEx [simpleStackEx]
    rfl simpleStackEx (List.mem_singleton_self _)).1

end GB
